import Mathlib

/-!
Verification of the osiris_openings opening-trainer frontend.

The definitions below are a shallow embedding of the JavaScript source:
DOM-free state (`appState`) becomes an explicit `AppState` record, JS `Set`
becomes `Finset String`, `fetch` responses become an explicit
`BackendResult` argument, and each handler becomes a pure state-transition
function.  Server-side training-session code is not part of the repository
snapshot; those operations carry a `Modelled from the spec:` comment and
follow §4.5 of the specification.
-/

namespace Osiris

abbrev NodeId := String

/-- Outcome of a `fetch` call as seen by a handler: a successful JSON
response (`data.success` with payload), a response whose `success` flag is
false or whose payload is missing (`failure`), or a thrown network error
(`netError`). -/
inductive BackendResult (α : Type) where
  | ok (payload : α)
  | failure
  | netError
deriving DecidableEq

/-- Server-side per-session learning state (spec §3 `TrainingSession`). -/
structure TrainingSession where
  studiedNodeIds : Finset NodeId
  directlyLearnedNodeIds : Finset NodeId
  mistakeCount : Nat
deriving DecidableEq

/-- Modelled from the spec: a freshly created training session starts with
empty studied/learned sets and a zero mistake counter (spec §3: session
state is created when training starts; `mistakeCount` is session-scoped). -/
def TrainingSession.init : TrainingSession :=
  { studiedNodeIds := ∅, directlyLearnedNodeIds := ∅, mistakeCount := 0 }

/-- Modelled from the spec: the server operation behind
`/api/training/mark_directly_learned` (the backend source is not in the
snapshot).  Spec §4.5: adds to `directlyLearnedNodeIds` only if absent and
returns whether it was newly added. -/
def markDirectlyLearned (s : TrainingSession) (nodeId : NodeId) :
    TrainingSession × Bool :=
  if nodeId ∈ s.directlyLearnedNodeIds then (s, false)
  else ({ s with directlyLearnedNodeIds := insert nodeId s.directlyLearnedNodeIds }, true)

/-- Modelled from the spec: the server operation behind
`/api/training/unmark_directly_learned` (backend source not in the
snapshot).  Spec §4.5: removes the node id, reporting whether it was
present (`wasLearned`). -/
def unmarkDirectlyLearned (s : TrainingSession) (nodeId : NodeId) :
    TrainingSession × Bool :=
  if nodeId ∈ s.directlyLearnedNodeIds then
    ({ s with directlyLearnedNodeIds := s.directlyLearnedNodeIds.erase nodeId }, true)
  else (s, false)

/-- Modelled from the spec: the server operation behind
`/api/training/record_mistake` (backend source not in the snapshot).
Spec §4.5 `recordMistake(session) → count`: monotonic increment,
session-scoped; returns the new count. -/
def recordMistake (s : TrainingSession) : TrainingSession × Nat :=
  ({ s with mistakeCount := s.mistakeCount + 1 }, s.mistakeCount + 1)

/-- One entry of `appState.availableMoves` (uci string as a char list,
SAN, backend-computed color, games count). -/
structure Move where
  uci : Option (List Char)
  san : String
  color : Option String
  games : Nat
deriving DecidableEq

/-- The frontend `appState` fields relevant to training, navigation and
arrow rendering (declared in part_001/part_003 of the source). -/
structure AppState where
  trainingMode : Bool
  currentPlayer : Option String
  currentPosition : String
  currentNodeId : Option NodeId
  currentNodeParentId : Option NodeId
  availableMoves : List Move
  studiedNodes : Finset NodeId
  directlyLearnedNodes : Finset NodeId
  mistakeCount : Nat
  trainingSessionId : String
deriving DecidableEq

/-- `handleCorrectMove` (part_003 lines 2651-2658): asks the backend to
mark the node directly learned; only when the backend reports
`newly_learned` does the frontend add the node to
`appState.directlyLearnedNodes`.  The backend call is the spec-modelled
`markDirectlyLearned`; the returned Bool is the backend's
`newly_learned` flag. -/
def handleCorrectMove (st : AppState) (sess : TrainingSession) (nodeId : NodeId) :
    AppState × TrainingSession × Bool :=
  let r := markDirectlyLearned sess nodeId
  if r.2 then
    ({ st with directlyLearnedNodes := insert nodeId st.directlyLearnedNodes }, r.1, true)
  else (st, r.1, false)

/-- `handleMistake` (part_003 lines 2661-2676): always records the mistake
with the backend and copies the returned count into `appState.mistakeCount`;
then, only if the node is in the frontend learned set, asks the backend to
unmark it and deletes it locally when the backend confirms `was_learned`. -/
def handleMistake (st : AppState) (sess : TrainingSession) (nodeId : NodeId) :
    AppState × TrainingSession :=
  let r := recordMistake sess
  let st1 := { st with mistakeCount := r.2 }
  if nodeId ∈ st1.directlyLearnedNodes then
    let u := unmarkDirectlyLearned r.1 nodeId
    if u.2 then
      ({ st1 with directlyLearnedNodes := st1.directlyLearnedNodes.erase nodeId }, u.1)
    else (st1, u.1)
  else (st1, r.1)

/-- `updateLearningStatsDisplay` (part_003 lines 2681-2688): the two
numbers rendered into the `learningStats` element — the size of
`directlyLearnedNodes` and the mistake counter. -/
def updateLearningStatsDisplay (st : AppState) : Nat × Nat :=
  (st.directlyLearnedNodes.card, st.mistakeCount)

/-- `startTrainingMode` (part_003 lines 641-703), restricted to its effect
on `appState`: switches training mode on, installs a fresh session id,
clears `studiedNodes`, and loads position/moves/node id from the backend
response.  Note that `directlyLearnedNodes` and `mistakeCount` are NOT
touched by the source. -/
def startTrainingMode (st : AppState) (sessionId : String) (pos : String)
    (moves : List Move) (nodeId : Option NodeId) : AppState :=
  { st with trainingMode := true, currentPlayer := some "My Repertoire",
            trainingSessionId := sessionId, studiedNodes := ∅,
            currentPosition := pos, availableMoves := moves,
            currentNodeId := nodeId }

/-- `getLearningStats` (part_003 lines 2604-2617): on a successful response
overwrites the frontend learned set and mistake counter with the backend
session's values; on failure or a thrown error leaves the state unchanged. -/
def getLearningStats (st : AppState) (resp : BackendResult TrainingSession) : AppState :=
  match resp with
  | .ok sess => { st with directlyLearnedNodes := sess.directlyLearnedNodeIds,
                          mistakeCount := sess.mistakeCount }
  | .failure => st
  | .netError => st

/-- A backend node object as returned by `/api/get_child_node` /
`/api/get_node_by_id`: id, FEN, parent id, and the children list already
mapped to `availableMoves` entries (part_003 lines 1671-1695). -/
structure ChildNode where
  id : NodeId
  fen : String
  parentId : Option NodeId
  moves : List Move
deriving DecidableEq

/-- `markNodeAsStudied` (part_003 lines 2315-2342): adds the node to the
frontend `studiedNodes` set and returns true exactly when the backend
reports success; on a failure response or a thrown fetch error it returns
false and changes nothing. -/
def markNodeAsStudied (st : AppState) (nodeId : NodeId) (resp : BackendResult Unit) :
    AppState × Bool :=
  match resp with
  | .ok _ => ({ st with studiedNodes := insert nodeId st.studiedNodes }, true)
  | .failure => (st, false)
  | .netError => (st, false)

/-- `getUnstudiedMoves` (part_003 lines 2347-2366): returns the backend's
move list on success and the empty list on a failure response or a thrown
fetch error. -/
def getUnstudiedMoves (resp : BackendResult (List Move)) : List Move :=
  match resp with
  | .ok moves => moves
  | .failure => []
  | .netError => []

/-- `sendMoveToBackend` (part_003 lines 2557-2598).  `ensuredId` is what
`ensureNodeIdForCurrentPosition` (lines 2508-2523) would install when
`currentNodeId` is absent.  With a node id and a SAN present, a successful
response advances `currentNodeId` to the child and returns it; any other
response returns `none` with the state untouched. -/
def sendMoveToBackend (st : AppState) (ensuredId : Option NodeId)
    (moveSan : Option String) (resp : BackendResult ChildNode) :
    AppState × Option ChildNode :=
  let st0 := if st.currentNodeId.isNone then { st with currentNodeId := ensuredId } else st
  if st0.currentNodeId.isNone || moveSan.isNone then (st0, none)
  else
    match resp with
    | .ok child => ({ st0 with currentNodeId := some child.id }, some child)
    | .failure => (st0, none)
    | .netError => (st0, none)

/-- `updateAppStateWithNode` (part_003 lines 1671-1695): installs a backend
node as the current position. -/
def updateAppStateWithNode (st : AppState) (node : ChildNode) : AppState :=
  { st with currentNodeId := some node.id, currentPosition := node.fen,
            availableMoves := node.moves, currentNodeParentId := node.parentId }

/-- `handleMoveClick` (part_003 lines 1400-1422): looks up the clicked
index in `availableMoves`, forwards the SAN via `sendMoveToBackend`, and
updates the state only when a child node came back. -/
def handleMoveClick (st : AppState) (moveIndex : Nat) (ensuredId : Option NodeId)
    (resp : BackendResult ChildNode) : AppState :=
  match st.availableMoves.get? moveIndex with
  | none => st
  | some mv =>
    let r := sendMoveToBackend st ensuredId (some mv.san) resp
    match r.2 with
    | some node => updateAppStateWithNode r.1 node
    | none => r.1

/-- Raw per-move statistics as consumed by `MoveStatsRenderer`
(temp_move_stats.js): counts of games, wins, draws, losses. -/
structure MoveStats where
  games : Nat
  wins : Nat
  draws : Nat
  losses : Nat
deriving DecidableEq

/-- What the compact stats bar renders: a dashed empty no-data bar, or a
three-segment bar carrying the win/draw/loss percentages. -/
inductive BarView where
  | noData : BarView
  | bar (winPart drawPart lossPart : ℚ) : BarView
deriving DecidableEq

/-- `(wins / games) * 100` from `createCompactStatsBar`
(temp_move_stats.js line 141). -/
def winPercent (m : MoveStats) : ℚ := (m.wins : ℚ) / (m.games : ℚ) * 100

/-- `(draws / games) * 100` from `createCompactStatsBar`
(temp_move_stats.js line 142). -/
def drawPercent (m : MoveStats) : ℚ := (m.draws : ℚ) / (m.games : ℚ) * 100

/-- `(losses / games) * 100` from `createCompactStatsBar`
(temp_move_stats.js line 143). -/
def lossPercent (m : MoveStats) : ℚ := (m.losses : ℚ) / (m.games : ℚ) * 100

/-- `MoveStatsRenderer.createCompactStatsBar` (temp_move_stats.js lines
106-162): `games == 0` yields the dashed no-data bar, as does a zero
`wins+draws+losses` total; otherwise the bar carries the three
percentages. -/
def createCompactStatsBar (m : MoveStats) : BarView :=
  if m.games = 0 then .noData
  else if m.wins + m.draws + m.losses = 0 then .noData
  else .bar (winPercent m) (drawPercent m) (lossPercent m)

/-- A rendered rate: either a no-data marker (the dash / dashed bar) or a
number displayed with a percent sign, held in tenths of a percent. -/
inductive RateText where
  | noData : RateText
  | percent (tenths : ℤ) : RateText
deriving DecidableEq

/-- `ChessComMoveStatsTest.createWinrateDisplay` (chesscom_test.js lines
129-143): renders the dash when `games === 0`, otherwise
`Math.round(win_rate)` with a percent sign. -/
def createWinrateDisplay (games : Nat) (winRate : ℚ) : RateText :=
  if games = 0 then .noData else .percent (10 * round winRate)

/-- `updatePositionStats` (part_003 lines 1580-1594): the position panel
renders `Win Rate: ${(stats.win_rate || 0).toFixed(1)}%` unconditionally —
a percentage for every input, with missing data defaulted to 0 by `|| 0`;
there is no no-data branch. -/
def updatePositionStats (played : Nat) (winRate : ℚ) : Nat × RateText :=
  (played, .percent (round (winRate * 10)))

/-- The chessground brush table `config.drawable.brushes`
(script-cg.js lines 128-137): color, opacity and line width per brush. -/
structure Brush where
  color : String
  opacity : ℚ
  lineWidth : Nat
deriving DecidableEq

/-- `config.drawable.brushes` (script-cg.js lines 128-137) as a lookup from
brush name to brush. -/
def brushes (name : String) : Option Brush :=
  if name = "excellent" then some ⟨"#4caf50", 1, 6⟩
  else if name = "good" then some ⟨"#8bc34a", 1, 6⟩
  else if name = "average" then some ⟨"#ffeb3b", 1, 6⟩
  else if name = "below" then some ⟨"#ff9800", 1, 6⟩
  else if name = "poor" then some ⟨"#f44336", 1, 6⟩
  else if name = "nodata" then some ⟨"#9e9e9e", 1, 4⟩
  else if name = "repertoire" then some ⟨"#4caf50", 1, 8⟩
  else none

/-- `getChessgroundBrush` (script-cg.js lines 210-227): repertoire moves
take the `repertoire` brush; otherwise the backend hex color is looked up
in the fixed table, any unknown color falling back to `nodata`. -/
def getChessgroundBrush (backendColor : String) (isRepertoire : Bool) : String :=
  if isRepertoire then "repertoire"
  else if backendColor = "#4caf50" then "excellent"
  else if backendColor = "#8bc34a" then "good"
  else if backendColor = "#ffeb3b" then "average"
  else if backendColor = "#ff9800" then "below"
  else if backendColor = "#f44336" then "poor"
  else if backendColor = "#9e9e9e" then "nodata"
  else "nodata"

/-- `isValidSquare` (part_001 lines 35-44): a two-character square whose
lower-cased file is `a`-`h` and whose rank is `1`-`8`. -/
def isValidSquare (sq : List Char) : Bool :=
  match sq with
  | [f, r] => 'a' ≤ f.toLower && f.toLower ≤ 'h' && '1' ≤ r && r ≤ '8'
  | _ => false

/-- The brush name chosen for an arrow in `showAvailableMovesArrows`
(part_003 lines 2137-2141): `getChessgroundBrush(move.color || '#9e9e9e',
isRepertoire)`. -/
def arrowBrush (isRepertoire : Bool) (m : Move) : String :=
  getChessgroundBrush (m.color.getD "#9e9e9e") isRepertoire

/-- An arrow shape handed to chessground: origin and destination squares
plus the brush name. -/
structure Shape where
  orig : List Char
  dest : List Char
  brush : String
deriving DecidableEq

/-- `showAvailableMovesArrows` (part_003 lines 2105-2165) restricted to the
shapes it produces: no arrows in training mode; otherwise one arrow per
move whose uci yields two valid squares, brushed via `arrowBrush`. -/
def showAvailableMovesArrows (trainingMode : Bool) (isRepertoire : Bool)
    (moves : List Move) : List Shape :=
  if trainingMode then []
  else
    moves.filterMap fun m =>
      let fromSq := (m.uci.getD []).take 2
      let toSq := ((m.uci.getD []).drop 2).take 2
      if m.uci.isSome && isValidSquare fromSq && isValidSquare toSq then
        some ⟨fromSq, toSq, arrowBrush isRepertoire m⟩
      else none

/-- `s.startsWith(p)` on JS strings, as char lists. -/
def listStarts : List Char → List Char → Bool
  | [], _ => true
  | _ :: _, [] => false
  | a :: p, b :: s => a == b && listStarts p s

/-- `isEquivalentMove` (part_003 lines 2069-2084): an absent uci never
matches; otherwise the uci equals `from+to`, or is a 5-character promotion
uci beginning with `from+to`. -/
def isEquivalentMove (fromSq toSq : List Char) (m : Move) : Bool :=
  match m.uci with
  | none => false
  | some u => u == fromSq ++ toSq || (u.length == 5 && listStarts (fromSq ++ toSq) u)

/-- The matching condition of `handleDragDropMove`'s tree branch
(part_003 lines 2041-2044): `move.uci === uciMove ||
(move.uci && move.uci.startsWith(uciMove)) || isEquivalentMove(from, to, move)`. -/
def dragDropMatch (fromSq toSq : List Char) (m : Move) : Bool :=
  (match m.uci with
   | some u => u == fromSq ++ toSq || listStarts (fromSq ++ toSq) u
   | none => false)
  || isEquivalentMove fromSq toSq m

/-- The repertoire player names (part_003 line 2005). -/
def repertoireNames : List String := ["my repertoire", "white_repertoir", "black_repertoir"]

/-- JS `String.prototype.toLowerCase` restricted to ASCII, as used on the
player names; written over the char list so the kernel can evaluate it. -/
def strToLower (s : String) : String := ⟨s.data.map Char.toLower⟩

/-- The case-insensitive repertoire check of `handleDragDropMove`
(part_003 line 2006): `repertoireNames.includes((appState.currentPlayer ||
'').toLowerCase())`. -/
def isOwnRepertoire (p : Option String) : Bool :=
  repertoireNames.contains (strToLower (p.getD ""))

/-- What `handleDragDropMove` does with a square pair: delegate to the
training handler, delegate to the Repertoire-Modus branch, forward the
matched move index into the navigation system (carrying the state after
`handleMoveClick`), or reject the pair and re-render the board from the
unchanged current position (carrying the unchanged state). -/
inductive DragOutcome where
  | trainingDelegated : DragOutcome
  | repertoireDelegated : DragOutcome
  | navigate (moveIndex : Nat) (st : AppState) : DragOutcome
  | resetBoard (st : AppState) : DragOutcome
deriving DecidableEq

/-- `handleDragDropMove` (part_003 lines 1995-2063): training mode and
Repertoire-Modus delegate; otherwise the first `availableMoves` entry
matching `dragDropMatch` is forwarded by index through `handleMoveClick`
(JS: `find` then `indexOf` then a synthetic click event), and with no
match the board is reset with the state untouched. -/
def handleDragDropMove (st : AppState) (fromSq toSq : List Char)
    (ensuredId : Option NodeId) (resp : BackendResult ChildNode) : DragOutcome :=
  if st.trainingMode then .trainingDelegated
  else if isOwnRepertoire st.currentPlayer then .repertoireDelegated
  else
    match st.availableMoves.find? (dragDropMatch fromSq toSq) with
    | some mv =>
      .navigate (st.availableMoves.indexOf mv)
        (handleMoveClick st (st.availableMoves.indexOf mv) ensuredId resp)
    | none => .resetBoard st

end Osiris

namespace Osiris

/-- On equal lengths, `listStarts` is equality. -/
theorem listStarts_eq_of_length (p u : List Char) (hl : u.length = p.length) :
    (listStarts p u = true ↔ u = p) := by
  induction p generalizing u with
  | nil =>
    cases u with
    | nil => simp [listStarts]
    | cons b bs => simp at hl
  | cons a as ih =>
    cases u with
    | nil => simp at hl
    | cons b bs =>
      simp only [List.length_cons, Nat.add_right_cancel_iff] at hl
      simp only [listStarts, Bool.and_eq_true, beq_iff_eq, ih bs hl, List.cons_eq_cons]
      constructor
      · rintro ⟨rfl, rfl⟩; exact ⟨rfl, rfl⟩
      · rintro ⟨rfl, rfl⟩; exact ⟨rfl, rfl⟩

/-- Every brush name `getChessgroundBrush` can return is in the brush
table with opacity 1 and a line width of 4, 6 or 8. -/
theorem brushes_getChessgroundBrush (c : String) (r : Bool) :
    ∃ b, brushes (getChessgroundBrush c r) = some b ∧ b.opacity = 1 ∧
      (b.lineWidth = 4 ∨ b.lineWidth = 6 ∨ b.lineWidth = 8) := by
  unfold getChessgroundBrush
  split_ifs <;> exact ⟨_, rfl, rfl, by decide⟩

/-- C1: marking a node directly learned twice in one session — the second
call reports `newlyLearned = false`, leaves the frontend learned set (and
hence the displayed learned count) unchanged, and leaves the backend
session unchanged. -/
theorem handleCorrectMove_idempotent (st : AppState) (sess : TrainingSession)
    (nodeId : NodeId) :
    let r1 := handleCorrectMove st sess nodeId
    let r2 := handleCorrectMove r1.1 r1.2.1 nodeId
    r2.2.2 = false ∧ r2.1 = r1.1 ∧ r2.2.1 = r1.2.1 ∧
      (updateLearningStatsDisplay r2.1).1 = (updateLearningStatsDisplay r1.1).1 := by
  unfold handleCorrectMove markDirectlyLearned
  by_cases h : nodeId ∈ sess.directlyLearnedNodeIds <;>
    simp [h, Finset.mem_insert]

/-- C3 counterexample: `startTrainingMode` — the new-session initialization
the claim points at — does not reset the displayed mistake counter (nor the
frontend learned set): starting from a state with `mistakeCount = 5` the
counter is still 5 afterwards. -/
theorem startTrainingMode_keeps_stale_counter :
    let st0 : AppState :=
      { trainingMode := false, currentPlayer := some "My Repertoire",
        currentPosition := "start", currentNodeId := none,
        currentNodeParentId := none, availableMoves := [],
        studiedNodes := ∅, directlyLearnedNodes := {"n1"}, mistakeCount := 5,
        trainingSessionId := "training_1" }
    let st1 := startTrainingMode st0 "training_2" "start" [] none
    st1.mistakeCount = 5 ∧ ¬ st1.mistakeCount = 0 ∧
      st1.directlyLearnedNodes = {"n1"} := by
  refine ⟨rfl, by decide, rfl⟩

/-- C3 (amended): the backend per-session mistake counter is monotone —
each recorded mistake increments it by one and nothing ever lowers it — and
a freshly created session starts at zero; `startTrainingMode` clears the
studied set and installs the fresh session id but leaves the displayed
`appState.mistakeCount` and learned set unchanged, and the display is
brought to the fresh session's zero only by the next `getLearningStats`
sync. -/
theorem mistakeCount_session_scoped :
    (∀ sess : TrainingSession,
        (recordMistake sess).1.mistakeCount = sess.mistakeCount + 1 ∧
        (recordMistake sess).2 = sess.mistakeCount + 1) ∧
    TrainingSession.init.mistakeCount = 0 ∧
    (∀ st sid pos moves nid,
        (startTrainingMode st sid pos moves nid).studiedNodes = ∅ ∧
        (startTrainingMode st sid pos moves nid).trainingSessionId = sid ∧
        (startTrainingMode st sid pos moves nid).mistakeCount = st.mistakeCount ∧
        (startTrainingMode st sid pos moves nid).directlyLearnedNodes =
          st.directlyLearnedNodes) ∧
    (∀ st : AppState,
        (getLearningStats st (.ok TrainingSession.init)).mistakeCount = 0) := by
  refine ⟨fun sess => ⟨rfl, rfl⟩, rfl, fun st sid pos moves nid => ⟨rfl, rfl, rfl, rfl⟩,
    fun st => rfl⟩

/-- C4: `handleMistake` increments the mistake counter; a node currently in
the learned set is removed exactly when the backend unmark confirms
`wasLearned`, no other node id is ever removed, and for a node not in the
set only the mistake counter changes. -/
theorem handleMistake_revokes_only_that_node (st : AppState) (sess : TrainingSession)
    (nodeId : NodeId) (hsync : st.mistakeCount = sess.mistakeCount) :
    let r := handleMistake st sess nodeId
    r.1.mistakeCount = st.mistakeCount + 1 ∧
    (nodeId ∈ st.directlyLearnedNodes →
      (nodeId ∉ r.1.directlyLearnedNodes ↔
        (unmarkDirectlyLearned (recordMistake sess).1 nodeId).2 = true)) ∧
    (∀ m : NodeId, m ≠ nodeId →
      (m ∈ r.1.directlyLearnedNodes ↔ m ∈ st.directlyLearnedNodes)) ∧
    (nodeId ∉ st.directlyLearnedNodes →
      r.1 = { st with mistakeCount := st.mistakeCount + 1 } ∧
      r.2 = (recordMistake sess).1) := by
  unfold handleMistake unmarkDirectlyLearned recordMistake
  by_cases hf : nodeId ∈ st.directlyLearnedNodes <;>
    by_cases hb : nodeId ∈ sess.directlyLearnedNodeIds
  all_goals simp [hf, hb, hsync, Finset.mem_erase]
  all_goals (intro m hm; simp [hm])

/-- C4 witness: the theorem applied at a concrete synced state holding one
learned node. -/
theorem handleMistake_revokes_only_that_node_witness :
    let st0 : AppState :=
      { trainingMode := true, currentPlayer := some "My Repertoire",
        currentPosition := "start", currentNodeId := some "n1",
        currentNodeParentId := none, availableMoves := [],
        studiedNodes := ∅, directlyLearnedNodes := {"n1"}, mistakeCount := 0,
        trainingSessionId := "training_1" }
    let sess0 : TrainingSession :=
      { studiedNodeIds := ∅, directlyLearnedNodeIds := {"n1"}, mistakeCount := 0 }
    let r := handleMistake st0 sess0 "n1"
    r.1.mistakeCount = st0.mistakeCount + 1 ∧
    ("n1" ∈ st0.directlyLearnedNodes →
      ("n1" ∉ r.1.directlyLearnedNodes ↔
        (unmarkDirectlyLearned (recordMistake sess0).1 "n1").2 = true)) ∧
    (∀ m : NodeId, m ≠ "n1" →
      (m ∈ r.1.directlyLearnedNodes ↔ m ∈ st0.directlyLearnedNodes)) ∧
    ("n1" ∉ st0.directlyLearnedNodes →
      r.1 = { st0 with mistakeCount := st0.mistakeCount + 1 } ∧
      r.2 = (recordMistake sess0).1) :=
  handleMistake_revokes_only_that_node _ _ "n1" rfl

/-- C7: a session tolerates the tree changing underneath it — with a
current node id, a backend failure or network error makes
`sendMoveToBackend` return `none` with the state untouched,
`handleMoveClick` then leaves the state unchanged, a missing node id
(unrecoverable by the ensure step) likewise yields `none`, and
`getUnstudiedMoves` returns the empty list on failure. -/
theorem session_tolerates_missing_node (st : AppState) (eid : Option NodeId)
    (san : Option String) (resp : BackendResult ChildNode)
    (hn : st.currentNodeId.isSome = true)
    (hresp : resp = .failure ∨ resp = .netError) :
    sendMoveToBackend st eid san resp = (st, none) ∧
    (∀ i, handleMoveClick st i eid resp = st) ∧
    (∀ st2 : AppState, st2.currentNodeId = none →
      ∀ r : BackendResult ChildNode, ∀ s : Option String,
        sendMoveToBackend st2 none s r = (st2, none)) ∧
    (∀ m : BackendResult (List Move), m = .failure ∨ m = .netError →
      getUnstudiedMoves m = []) := by
  have hne : st.currentNodeId.isNone = false := by
    cases h : st.currentNodeId <;> simp_all
  have hmain : sendMoveToBackend st eid san resp = (st, none) := by
    unfold sendMoveToBackend
    rcases hresp with h | h <;> subst h <;>
      cases hs : san <;> simp [hne]
  refine ⟨hmain, ?_, ?_, ?_⟩
  · intro i
    unfold handleMoveClick
    cases hg : st.availableMoves.get? i with
    | none => rfl
    | some mv =>
      have hmv : sendMoveToBackend st eid (some mv.san) resp = (st, none) := by
        unfold sendMoveToBackend
        rcases hresp with h | h <;> subst h <;> simp [hne]
      simp only [hmv]
  · intro st2 h2 r s
    unfold sendMoveToBackend
    have : ({ st2 with currentNodeId := none } : AppState) = st2 := by
      cases st2; simp_all
    simp [h2, this]
  · intro m hm
    rcases hm with h | h <;> subst h <;> rfl

/-- C7 witness: the theorem applied at a concrete state with a current node
id and a backend failure response. -/
theorem session_tolerates_missing_node_witness :
    let st0 : AppState :=
      { trainingMode := true, currentPlayer := some "My Repertoire",
        currentPosition := "start", currentNodeId := some "n1",
        currentNodeParentId := none, availableMoves := [],
        studiedNodes := ∅, directlyLearnedNodes := ∅, mistakeCount := 0,
        trainingSessionId := "training_1" }
    sendMoveToBackend st0 none (some "e4") .failure = (st0, none) ∧
    (∀ i, handleMoveClick st0 i none .failure = st0) ∧
    (∀ st2 : AppState, st2.currentNodeId = none →
      ∀ r : BackendResult ChildNode, ∀ s : Option String,
        sendMoveToBackend st2 none s r = (st2, none)) ∧
    (∀ m : BackendResult (List Move), m = .failure ∨ m = .netError →
      getUnstudiedMoves m = []) :=
  session_tolerates_missing_node _ none (some "e4") .failure rfl (Or.inl rfl)

/-- C10: `markNodeAsStudied` is atomic on error — the node is added to the
studied set and true is returned exactly on a success response; a failure
response or a thrown fetch error returns false with the set untouched. -/
theorem markNodeAsStudied_atomic :
    (∀ st nodeId, markNodeAsStudied st nodeId (.ok ()) =
        ({ st with studiedNodes := insert nodeId st.studiedNodes }, true)) ∧
    (∀ st nodeId, markNodeAsStudied st nodeId .failure = (st, false)) ∧
    (∀ st nodeId, markNodeAsStudied st nodeId .netError = (st, false)) ∧
    (∀ st nodeId resp, ((markNodeAsStudied st nodeId resp).2 = true ↔ resp = .ok ())) ∧
    (∀ st nodeId resp, (nodeId ∈ (markNodeAsStudied st nodeId resp).1.studiedNodes ↔
        resp = .ok () ∨ nodeId ∈ st.studiedNodes)) := by
  refine ⟨fun st n => rfl, fun st n => rfl, fun st n => rfl, ?_, ?_⟩
  · intro st n resp
    cases resp <;> simp [markNodeAsStudied]
  · intro st n resp
    cases resp <;> simp [markNodeAsStudied, Finset.mem_insert]

/-- C2: for a `games == 0` edge the compact stats bar is the dashed
no-data bar and the chess.com win-rate display is the dash — but the
position-statistics panel (`updatePositionStats`) still renders a
percentage, `Win Rate: 0.0%`, for the very same no-data input, violating
the no-data guard. -/
theorem gamesZero_noData_guard :
    createCompactStatsBar ⟨0, 0, 0, 0⟩ = BarView.noData ∧
    createWinrateDisplay 0 0 = RateText.noData ∧
    updatePositionStats 0 0 = (0, RateText.percent 0) := by
  refine ⟨rfl, rfl, ?_⟩
  unfold updatePositionStats
  norm_num

/-- C5: `getChessgroundBrush` is pure and deterministic, repertoire moves
always map to the `repertoire` brush, each of the six fixed bucket colors
maps to its bucket brush, and every other color maps to `nodata`. -/
theorem getChessgroundBrush_pure_buckets :
    (∀ c r, getChessgroundBrush c r = getChessgroundBrush c r) ∧
    (∀ c, getChessgroundBrush c true = "repertoire") ∧
    getChessgroundBrush "#4caf50" false = "excellent" ∧
    getChessgroundBrush "#8bc34a" false = "good" ∧
    getChessgroundBrush "#ffeb3b" false = "average" ∧
    getChessgroundBrush "#ff9800" false = "below" ∧
    getChessgroundBrush "#f44336" false = "poor" ∧
    getChessgroundBrush "#9e9e9e" false = "nodata" ∧
    (∀ c, c ∉ ["#4caf50", "#8bc34a", "#ffeb3b", "#ff9800", "#f44336", "#9e9e9e"] →
      getChessgroundBrush c false = "nodata") := by
  refine ⟨fun c r => rfl, fun c => rfl, rfl, rfl, rfl, rfl, rfl, rfl, ?_⟩
  intro c hc
  simp only [List.mem_cons, List.not_mem_nil, or_false, not_or] at hc
  obtain ⟨h1, h2, h3, h4, h5, h6⟩ := hc
  unfold getChessgroundBrush
  simp [h1, h2, h3, h4, h5, h6]

/-- C5 witness: the theorem's catch-all clause applied to a color outside
the fixed table. -/
theorem getChessgroundBrush_pure_buckets_witness :
    getChessgroundBrush "#123456" false = "nodata" :=
  getChessgroundBrush_pure_buckets.2.2.2.2.2.2.2.2 "#123456" (by decide)

/-- C6 counterexample: two rendered arrows in the same color bucket with
games counts 1 and 100 get the identical brush, opacity and thickness, and
two arrows with equal games counts in different buckets get different
thicknesses — opacity and thickness do not scale with the games count. -/
theorem arrows_ignore_games_count :
    let m1 : Move := { uci := some ['e', '2', 'e', '4'], san := "e4",
                       color := some "#4caf50", games := 1 }
    let m2 : Move := { uci := some ['d', '2', 'd', '4'], san := "d4",
                       color := some "#4caf50", games := 100 }
    let m3 : Move := { uci := some ['g', '1', 'f', '3'], san := "Nf3",
                       color := some "#9e9e9e", games := 1 }
    (showAvailableMovesArrows false false [m1, m2]).map (fun sh => brushes sh.brush) =
      [some ⟨"#4caf50", 1, 6⟩, some ⟨"#4caf50", 1, 6⟩] ∧
    m1.games ≠ m2.games ∧
    brushes (arrowBrush false m1) = some ⟨"#4caf50", 1, 6⟩ ∧
    brushes (arrowBrush false m3) = some ⟨"#9e9e9e", 1, 4⟩ ∧
    m1.games = m3.games := by
  refine ⟨rfl, by decide, rfl, rfl, rfl⟩

/-- C6 (amended): arrow opacity and thickness are fixed per brush and
independent of the games count — every rendered arrow's brush is in the
table with opacity 1 and line width 4, 6 or 8, and two moves with the same
backend color get the same brush whatever their games counts. -/
theorem arrow_visuals_bucket_determined :
    (∀ tm isRep moves, ∀ sh ∈ showAvailableMovesArrows tm isRep moves,
      ∃ b, brushes sh.brush = some b ∧ b.opacity = 1 ∧
        (b.lineWidth = 4 ∨ b.lineWidth = 6 ∨ b.lineWidth = 8)) ∧
    (∀ isRep : Bool, ∀ m m' : Move, m.color = m'.color →
      arrowBrush isRep m = arrowBrush isRep m') := by
  constructor
  · intro tm isRep moves sh hsh
    unfold showAvailableMovesArrows at hsh
    cases tm with
    | true => simp at hsh
    | false =>
      simp only [Bool.false_eq_true, if_false, List.mem_filterMap] at hsh
      obtain ⟨m, hm, hf⟩ := hsh
      by_cases hcond : (m.uci.isSome && isValidSquare ((m.uci.getD []).take 2) &&
          isValidSquare (((m.uci.getD []).drop 2).take 2)) = true
      · rw [if_pos hcond] at hf
        obtain rfl : Shape.mk ((m.uci.getD []).take 2) (((m.uci.getD []).drop 2).take 2)
            (arrowBrush isRep m) = sh := by injection hf
        exact brushes_getChessgroundBrush _ _
      · rw [if_neg hcond] at hf
        exact absurd hf (by simp)
  · intro isRep m m' h
    unfold arrowBrush
    rw [h]

/-- C6 amended witness: the theorem applied to the single arrow rendered
for a concrete `#4caf50` move, and to two concrete moves sharing that
color with games counts 1 and 100. -/
theorem arrow_visuals_bucket_determined_witness :
    (∃ b, brushes "excellent" = some b ∧ b.opacity = 1 ∧
      (b.lineWidth = 4 ∨ b.lineWidth = 6 ∨ b.lineWidth = 8)) ∧
    arrowBrush false
        { uci := some ['e', '2', 'e', '4'], san := "e4",
          color := some "#4caf50", games := 1 } =
      arrowBrush false
        { uci := some ['d', '2', 'd', '4'], san := "d4",
          color := some "#4caf50", games := 100 } :=
  ⟨arrow_visuals_bucket_determined.1 false false
      [{ uci := some ['e', '2', 'e', '4'], san := "e4",
         color := some "#4caf50", games := 1 }]
      ⟨['e', '2'], ['e', '4'], "excellent"⟩ (by decide),
   arrow_visuals_bucket_determined.2 false _ _ rfl⟩

/-- C8: whenever `wins + draws + losses = games` and `games > 0`, the three
percentages computed by `createCompactStatsBar` sum to exactly 100 as
rationals, and the bar indeed renders them. -/
theorem rates_sum_to_100 (m : MoveStats) (h1 : m.wins + m.draws + m.losses = m.games)
    (h2 : 0 < m.games) :
    winPercent m + drawPercent m + lossPercent m = 100 ∧
    createCompactStatsBar m = .bar (winPercent m) (drawPercent m) (lossPercent m) := by
  have hg0 : m.games ≠ 0 := h2.ne'
  have hg : (m.games : ℚ) ≠ 0 := Nat.cast_ne_zero.mpr hg0
  constructor
  · unfold winPercent drawPercent lossPercent
    have hcast : (m.wins : ℚ) + (m.draws : ℚ) + (m.losses : ℚ) = (m.games : ℚ) := by
      exact_mod_cast h1
    field_simp
    linarith [hcast]
  · unfold createCompactStatsBar
    have htot : ¬ (m.wins + m.draws + m.losses = 0) := by omega
    simp [hg0, htot]

/-- C8 witness: the theorem applied to `{games := 2, wins := 1, draws := 1,
losses := 0}`. -/
theorem rates_sum_to_100_witness :
    winPercent ⟨2, 1, 1, 0⟩ + drawPercent ⟨2, 1, 1, 0⟩ + lossPercent ⟨2, 1, 1, 0⟩ = 100 ∧
    createCompactStatsBar ⟨2, 1, 1, 0⟩ =
      .bar (winPercent ⟨2, 1, 1, 0⟩) (drawPercent ⟨2, 1, 1, 0⟩) (lossPercent ⟨2, 1, 1, 0⟩) :=
  rates_sum_to_100 ⟨2, 1, 1, 0⟩ (by decide) (by decide)

/-- For chess-shaped ucis (length 4 or 5) and a 4-character `from+to`, the
tree-branch matching condition of `handleDragDropMove` holds exactly when
the uci equals `from+to` or is a 5-character uci beginning with it. -/
theorem dragDropMatch_iff (fromSq toSq : List Char) (m : Move)
    (hlen : ∀ u, m.uci = some u → u.length = 4 ∨ u.length = 5)
    (hp : (fromSq ++ toSq).length = 4) :
    (dragDropMatch fromSq toSq m = true ↔
      ∃ u, m.uci = some u ∧ (u = fromSq ++ toSq ∨
        (u.length = 5 ∧ listStarts (fromSq ++ toSq) u = true))) := by
  cases hu : m.uci with
  | none => simp [dragDropMatch, isEquivalentMove, hu]
  | some u =>
    have hul := hlen u hu
    simp only [dragDropMatch, isEquivalentMove, hu, Bool.or_eq_true, Bool.and_eq_true,
      beq_iff_eq, Option.some.injEq, exists_eq_left']
    rcases hul with h4 | h5
    · have hse : (listStarts (fromSq ++ toSq) u = true ↔ u = fromSq ++ toSq) :=
        listStarts_eq_of_length _ _ (by omega)
      constructor
      · rintro ((h | h) | (h | ⟨h, _⟩))
        · exact Or.inl h
        · exact Or.inl (hse.mp h)
        · exact Or.inl h
        · omega
      · rintro (h | ⟨h, _⟩)
        · exact Or.inl (Or.inl h)
        · omega
    · constructor
      · rintro ((h | h) | (h | ⟨_, h⟩))
        · exact Or.inl h
        · exact Or.inr ⟨h5, h⟩
        · exact Or.inl h
        · exact Or.inr ⟨h5, h⟩
      · rintro (h | ⟨_, h⟩)
        · exact Or.inl (Or.inl h)
        · exact Or.inl (Or.inr h)

/-- C9: in tree mode (training off, not a repertoire player) a dragged
square pair is forwarded to backend navigation exactly when some available
move's uci equals `from+to` or is a 5-character promotion uci beginning
with it; for every other pair no navigation is attempted and the board is
reset with the state unchanged. -/
theorem handleDragDropMove_tree_gating (st : AppState) (fromSq toSq : List Char)
    (eid : Option NodeId) (resp : BackendResult ChildNode)
    (htm : st.trainingMode = false)
    (hrep : isOwnRepertoire st.currentPlayer = false)
    (hlen : ∀ m ∈ st.availableMoves, ∀ u, m.uci = some u → u.length = 4 ∨ u.length = 5)
    (hf : fromSq.length = 2) (ht : toSq.length = 2) :
    ((∃ i st2, handleDragDropMove st fromSq toSq eid resp = .navigate i st2) ↔
      (∃ m ∈ st.availableMoves, ∃ u, m.uci = some u ∧ (u = fromSq ++ toSq ∨
        (u.length = 5 ∧ listStarts (fromSq ++ toSq) u = true)))) ∧
    (¬ (∃ m ∈ st.availableMoves, ∃ u, m.uci = some u ∧ (u = fromSq ++ toSq ∨
        (u.length = 5 ∧ listStarts (fromSq ++ toSq) u = true))) →
      handleDragDropMove st fromSq toSq eid resp = .resetBoard st) := by
  have hp : (fromSq ++ toSq).length = 4 := by
    rw [List.length_append]; omega
  have hbranch : handleDragDropMove st fromSq toSq eid resp =
      (match st.availableMoves.find? (dragDropMatch fromSq toSq) with
       | some mv =>
         .navigate (st.availableMoves.indexOf mv)
           (handleMoveClick st (st.availableMoves.indexOf mv) eid resp)
       | none => .resetBoard st) := by
    unfold handleDragDropMove
    rw [htm, hrep]
    simp
  cases hfind : st.availableMoves.find? (dragDropMatch fromSq toSq) with
  | none =>
    have hnone : ∀ m ∈ st.availableMoves, ¬ dragDropMatch fromSq toSq m = true :=
      fun m hm => by simpa using List.find?_eq_none.mp hfind m hm
    rw [hbranch, hfind]
    constructor
    · constructor
      · rintro ⟨i, st2, h⟩; exact absurd h (by simp)
      · rintro ⟨m, hm, hcond⟩
        exact absurd ((dragDropMatch_iff fromSq toSq m (hlen m hm) hp).mpr hcond)
          (hnone m hm)
    · intro _; rfl
  | some mv =>
    have hmem : mv ∈ st.availableMoves := List.mem_of_find?_eq_some hfind
    have hmv : dragDropMatch fromSq toSq mv = true := List.find?_some hfind
    rw [hbranch, hfind]
    constructor
    · constructor
      · intro _
        obtain ⟨u, hu, hcond⟩ := (dragDropMatch_iff fromSq toSq mv (hlen mv hmem) hp).mp hmv
        exact ⟨mv, hmem, u, hu, hcond⟩
      · intro _; exact ⟨_, _, rfl⟩
    · intro hno
      obtain ⟨u, hu, hcond⟩ := (dragDropMatch_iff fromSq toSq mv (hlen mv hmem) hp).mp hmv
      exact absurd ⟨mv, hmem, u, hu, hcond⟩ hno

/-- C9 witness: the theorem applied to a concrete tree-mode state holding
the single move `e2e4`, with the square pair (`e2`,`e4`). -/
theorem handleDragDropMove_tree_gating_witness :
    let st0 : AppState :=
      { trainingMode := false, currentPlayer := some "Magnus_Carlsen",
        currentPosition := "start", currentNodeId := some "n1",
        currentNodeParentId := none,
        availableMoves := [{ uci := some ['e', '2', 'e', '4'], san := "e4",
                             color := some "#4caf50", games := 1 }],
        studiedNodes := ∅, directlyLearnedNodes := ∅, mistakeCount := 0,
        trainingSessionId := "" }
    ((∃ i st2, handleDragDropMove st0 ['e', '2'] ['e', '4'] none .failure =
        .navigate i st2) ↔
      (∃ m ∈ st0.availableMoves, ∃ u, m.uci = some u ∧
        (u = ['e', '2'] ++ ['e', '4'] ∨
          (u.length = 5 ∧ listStarts (['e', '2'] ++ ['e', '4']) u = true)))) ∧
    (¬ (∃ m ∈ st0.availableMoves, ∃ u, m.uci = some u ∧
        (u = ['e', '2'] ++ ['e', '4'] ∨
          (u.length = 5 ∧ listStarts (['e', '2'] ++ ['e', '4']) u = true))) →
      handleDragDropMove st0 ['e', '2'] ['e', '4'] none .failure = .resetBoard st0) :=
  handleDragDropMove_tree_gating _ _ _ none .failure rfl (by decide)
    (by decide) rfl rfl

end Osiris
